import Mathlib

/-
Shallow embedding of `source/random.hpp` (namespace effolkronium,
class `basic_random_static`): a static facade over a pseudo-random
engine with compile-time dispatch on the numeric type of the bounds.

Modelling conventions:
* C++ numeric types are represented by the enumeration `CType`; the
  type traits (`is_uniform_int`, `is_uniform_real`, `is_byte`,
  `is_supported_number`, `std::is_signed`, `std::is_unsigned`) and
  `std::common_type` become Boolean/total functions on `CType`,
  assuming the usual LP64 data model (int 32 bit, long and long long
  64 bit).
* Integral values are `Int`, floating-point values are modelled by
  exact rationals `ℚ`; `static_cast` between integral types is the
  modular wrap `castInt`.
* The engine (`std::default_random_engine`, seeded once from
  `std::random_device`) is a state in `Nat`; one draw is `engine_next`
  (a minstd-style linear congruential step).  The standard
  distributions are modelled as trusted primitives consuming one draw:
  `uniform_int_distribution a b` returns a value in `[a, b]` whenever
  `a ≤ b`, `uniform_real_distribution a b` returns a value in `[a, b)`
  (and `a` when `a = b`), matching the contracts the header relies on.
* The four `get` overloads (lines 70-139 of random.hpp) become
  `get_int`, `get_real`, `get_byte`, `get_common_val`, each threading
  the engine state explicitly; static overload resolution becomes
  `resolve_get`.
-/

namespace effolkronium

/-- C++ arithmetic types occurring in the header's type traits. -/
inductive CType where
  | schar | uchar
  | short | ushort
  | int | uint
  | long | ulong
  | longlong | ulonglong
  | float | double | longdouble
deriving DecidableEq, Repr

instance : Fintype CType :=
  ⟨⟨[CType.schar, CType.uchar, CType.short, CType.ushort, CType.int, CType.uint,
     CType.long, CType.ulong, CType.longlong, CType.ulonglong,
     CType.float, CType.double, CType.longdouble], by decide⟩,
   by intro x; cases x <;> decide⟩

/-- `is_uniform_int<T>::value` (random.hpp lines 22-33). -/
def is_uniform_int : CType → Bool
  | .short | .int | .long | .longlong => true
  | .ushort | .uint | .ulong | .ulonglong => true
  | _ => false

/-- `is_uniform_real<T>::value` (random.hpp lines 36-42). -/
def is_uniform_real : CType → Bool
  | .float | .double | .longdouble => true
  | _ => false

/-- `is_byte<T>::value` (random.hpp lines 45-50). -/
def is_byte : CType → Bool
  | .schar | .uchar => true
  | _ => false

/-- `is_supported_number<T>::value` (random.hpp lines 53-59). -/
def is_supported_number (t : CType) : Bool :=
  is_byte t || is_uniform_real t || is_uniform_int t

/-- `std::is_signed<T>::value`: signed integral types and all
floating-point types. -/
def is_signed : CType → Bool
  | .schar | .short | .int | .long | .longlong => true
  | .float | .double | .longdouble => true
  | _ => false

/-- `std::is_unsigned<T>::value`: unsigned integral types only. -/
def is_unsigned : CType → Bool
  | .uchar | .ushort | .uint | .ulong | .ulonglong => true
  | _ => false

/-- Bit width of each type under LP64 (the widths of the
floating-point entries are nominal object sizes; they are never used
semantically). -/
def width : CType → Nat
  | .schar | .uchar => 8
  | .short | .ushort => 16
  | .int | .uint => 32
  | .long | .ulong => 64
  | .longlong | .ulonglong => 64
  | .float => 32
  | .double => 64
  | .longdouble => 64

/-- Conversion rank of the integral types (0 for floating-point). -/
def int_rank : CType → Nat
  | .schar | .uchar => 1
  | .short | .ushort => 2
  | .int | .uint => 3
  | .long | .ulong => 4
  | .longlong | .ulonglong => 5
  | _ => 0

/-- Rank among the floating-point types (0 for integral types). -/
def float_rank : CType → Nat
  | .float => 1
  | .double => 2
  | .longdouble => 3
  | _ => 0

/-- C++ integer promotion: types of rank below `int` promote to `int`
(under LP64, `int` represents every `signed/unsigned char/short`
value); everything else is unchanged. -/
def promote : CType → CType
  | .schar | .uchar | .short | .ushort => .int
  | t => t

/-- The unsigned counterpart of a signed integral type. -/
def to_unsigned : CType → CType
  | .int => .uint
  | .long => .ulong
  | .longlong => .ulonglong
  | t => t

/-- `std::common_type<A, B>::type` for arithmetic types under LP64:
identical types stay; a floating-point operand dominates (higher
floating rank wins); otherwise both integral operands are promoted and
combined by the usual arithmetic conversions (same signedness: higher
rank; mixed: the unsigned type if its rank is at least the signed
one's, else the signed type when it can represent the whole unsigned
range, else the unsigned counterpart of the signed type). -/
def common_type (a b : CType) : CType :=
  if a = b then a
  else if is_uniform_real a || is_uniform_real b then
    (if float_rank a < float_rank b then b else a)
  else
    let p := promote a
    let q := promote b
    if p = q then p
    else if is_unsigned p = is_unsigned q then
      (if int_rank p < int_rank q then q else p)
    else
      let u := if is_unsigned p then p else q
      let sg := if is_unsigned p then q else p
      if int_rank sg ≤ int_rank u then u
      else if width u < width sg then sg
      else to_unsigned sg

/-- Smallest value representable in an integral type. -/
def tmin (c : CType) : Int :=
  if is_signed c then -(2 ^ (width c - 1)) else 0

/-- Largest value representable in an integral type. -/
def tmax (c : CType) : Int :=
  if is_signed c then 2 ^ (width c - 1) - 1 else 2 ^ width c - 1

/-- `static_cast` of an integer value into integral type `c`,
modelled as modular wrapping into the type's value range. -/
def castInt (c : CType) (x : Int) : Int :=
  if is_signed c then (x + 2 ^ (width c - 1)) % 2 ^ width c - 2 ^ (width c - 1)
  else x % 2 ^ width c

/-- One draw of the engine (`std::default_random_engine`, a
minstd-style linear congruential generator): output value and
successor state. -/
def engine_next (s : Nat) : Nat × Nat :=
  (16807 * s % 2147483647, 16807 * s % 2147483647)

/-- Model of `std::uniform_int_distribution<A>{a, b}(engine)`
(requires `a ≤ b`): consumes one engine draw and yields a value in
`[a, b]`. -/
def uniform_int_distribution (a b : Int) (s : Nat) : Int × Nat :=
  (a + ((engine_next s).1 : Int) % (b - a + 1), (engine_next s).2)

/-- Model of `std::uniform_real_distribution<A>{a, b}(engine)`
(requires `a ≤ b`): consumes one engine draw and yields a value in
`[a, b)` (exactly `a` when `a = b`). -/
def uniform_real_distribution (a b : ℚ) (s : Nat) : ℚ × Nat :=
  (a + (b - a) * (((engine_next s).1 : ℚ) / 2147483647), (engine_next s).2)

/-- `get` for uniform-int types (random.hpp lines 70-76): swap the
bounds when given from higher to lower, then sample. -/
def get_int (from_ to_ : Int) (s : Nat) : Int × Nat :=
  if from_ < to_ then uniform_int_distribution from_ to_ s
  else uniform_int_distribution to_ from_ s

/-- `get` for uniform-real types (random.hpp lines 87-93): swap the
bounds when given from higher to lower, then sample. -/
def get_real (from_ to_ : ℚ) (s : Nat) : ℚ × Nat :=
  if from_ < to_ then uniform_real_distribution from_ to_ s
  else uniform_real_distribution to_ from_ s

/-- The 16-bit type chosen by the byte overload (random.hpp lines
107-108): `short` when the byte type is signed, else `unsigned
short`. -/
def short_type (sg : Bool) : CType := if sg then CType.short else CType.ushort

/-- The byte type itself: `signed char` when `sg`, else
`unsigned char`. -/
def byte_type (sg : Bool) : CType := if sg then CType.schar else CType.uchar

/-- `get` for byte types (random.hpp lines 103-112): widen both bounds
to the 16-bit type of matching signedness, sample as integral, narrow
the result back to the byte type. -/
def get_byte (sg : Bool) (from_ to_ : Int) (s : Nat) : Int × Nat :=
  ((castInt (byte_type sg)
      (get_int (castInt (short_type sg) from_) (castInt (short_type sg) to_) s).1),
   (get_int (castInt (short_type sg) from_) (castInt (short_type sg) to_) s).2)

/-- The value-part of the `enable_if` condition of the common-type
overload once `Key = common` (random.hpp lines 131-136):
`is_supported_number<A> && is_supported_number<B> &&
 std::is_signed<A>::value != std::is_unsigned<B>::value`. -/
def commonGetEnabled (a b : CType) : Bool :=
  is_supported_number a && is_supported_number b && (is_signed a != is_unsigned b)

/-- Runtime values a `get` call can produce (integral or real). -/
inductive Value where
  | iv : Int → Value
  | rv : ℚ → Value
deriving DecidableEq, Repr

/-- `static_cast` of a model value into a floating-point type: exact
in the rational model (integral-to-floating conversion loses nothing
on exact rationals). -/
def toRat : Value → ℚ
  | .iv n => (n : ℚ)
  | .rv q => q

/-- `static_cast` of a model value into an integral type's underlying
integer: the identity on integral values; truncation toward zero on
real values (that direction is unreachable from well-typed arguments
of the common-type overload, since an integral common type forces both
argument types to be integral). -/
def toValInt : Value → Int
  | .iv n => n
  | .rv q => if q < 0 then -((-q).floor) else q.floor

/-- `v` is a well-typed value of C++ type `t`: an integer within the
type's range for integral types, a rational for floating-point
types. -/
def has_ctype (t : CType) (v : Value) : Prop :=
  match v with
  | .iv n => is_uniform_real t = false ∧ tmin t ≤ n ∧ n ≤ tmax t
  | .rv _ => is_uniform_real t = true

instance has_ctype_dec (t : CType) (v : Value) : Decidable (has_ctype t v) :=
  match v with
  | .iv _ => inferInstanceAs (Decidable (_ ∧ _ ∧ _))
  | .rv _ => inferInstanceAs (Decidable (_ = _))

/-- Value computation of the common-type overload (random.hpp line
138): cast both bounds into `C = std::common_type<A, B>::type` and
recurse into the `get` overload matching `C` — the real overload when
`C` is floating-point, the byte overload when `C` is a byte type, and
the integral overload otherwise. -/
def get_common_val (a b : CType) (fv tv : Value) (s : Nat) : Value × Nat :=
  if is_uniform_real (common_type a b) then
    (Value.rv (get_real (toRat fv) (toRat tv) s).1,
     (get_real (toRat fv) (toRat tv) s).2)
  else if is_byte (common_type a b) then
    (Value.iv (get_byte (is_signed (common_type a b))
        (castInt (common_type a b) (toValInt fv))
        (castInt (common_type a b) (toValInt tv)) s).1,
     (get_byte (is_signed (common_type a b))
        (castInt (common_type a b) (toValInt fv))
        (castInt (common_type a b) (toValInt tv)) s).2)
  else
    (Value.iv (get_int (castInt (common_type a b) (toValInt fv))
        (castInt (common_type a b) (toValInt tv)) s).1,
     (get_int (castInt (common_type a b) (toValInt fv))
        (castInt (common_type a b) (toValInt tv)) s).2)

/-- The overloads of `get` a call can resolve to. -/
inductive Overload where
  | uniformInt | uniformReal | byteOv | commonKey
deriving DecidableEq, Repr

/-- Static overload resolution for `get(from, to)` with argument types
`a`, `b`.  `keySupplied` records whether the caller explicitly passed
the nested tag `common` as the first template argument.  With the tag,
only the common-type overload (whose `Key` is otherwise not deducible)
is viable, subject to its `enable_if`; without it, the three
single-type overloads require both deduced types to agree and the
matching trait to hold.  `none` means the call fails to compile. -/
def resolve_get (keySupplied : Bool) (a b : CType) : Option Overload :=
  if keySupplied then
    (if commonGetEnabled a b then some Overload.commonKey else none)
  else if a = b then
    (if is_uniform_int a then some Overload.uniformInt
     else if is_uniform_real a then some Overload.uniformReal
     else if is_byte a then some Overload.byteOv
     else none)
  else none

/-- Static type of the value returned by a resolved `get` call: the
single-type overloads return their argument type `A`; the common-type
overload returns `C = std::common_type<A, B>::type`. -/
def get_return_type (keySupplied : Bool) (a b : CType) : Option CType :=
  match resolve_get keySupplied a b with
  | some Overload.commonKey => some (common_type a b)
  | some _ => some a
  | none => none

/-- Runtime dispatch of a same-type call `get(from, to)` at type `t`:
integral bounds `(fi, ti)` serve the integral and byte overloads, real
bounds `(fr, tr)` the real overload; unsupported types have no
overload (`none` — the call does not compile, there is no runtime
fallback). -/
def get_same (t : CType) (fi ti : Int) (fr tr : ℚ) (s : Nat) : Option (Value × Nat) :=
  if is_uniform_int t then some (Value.iv (get_int fi ti s).1, (get_int fi ti s).2)
  else if is_uniform_real t then some (Value.rv (get_real fr tr s).1, (get_real fr tr s).2)
  else if is_byte t then
    some (Value.iv (get_byte (is_signed t) fi ti s).1, (get_byte (is_signed t) fi ti s).2)
  else none

/-- Observable program state: the single static engine
(random.hpp lines 142, 146) together with all other observable state
of the program, abstracted as `world`. -/
structure ProgState where
  engine : Nat
  world : Nat
deriving DecidableEq, Repr

/-- The integral `get` acting on the whole program state. -/
def get_int_st (from_ to_ : Int) (g : ProgState) : Int × ProgState :=
  ((get_int from_ to_ g.engine).1, ⟨(get_int from_ to_ g.engine).2, g.world⟩)

/-- The real `get` acting on the whole program state. -/
def get_real_st (from_ to_ : ℚ) (g : ProgState) : ℚ × ProgState :=
  ((get_real from_ to_ g.engine).1, ⟨(get_real from_ to_ g.engine).2, g.world⟩)

/-- The byte `get` acting on the whole program state. -/
def get_byte_st (sg : Bool) (from_ to_ : Int) (g : ProgState) : Int × ProgState :=
  ((get_byte sg from_ to_ g.engine).1, ⟨(get_byte sg from_ to_ g.engine).2, g.world⟩)

/-- The common-type `get` acting on the whole program state. -/
def get_common_st (a b : CType) (fv tv : Value) (g : ProgState) : Value × ProgState :=
  ((get_common_val a b fv tv g.engine).1,
   ⟨(get_common_val a b fv tv g.engine).2, g.world⟩)

/-! ### Helper lemmas -/

/-- The uniform-int model honours its contract: for `a ≤ b` the value
lies in `[a, b]`. -/
lemma uniform_int_in_range (a b : Int) (s : Nat) (h : a ≤ b) :
    a ≤ (uniform_int_distribution a b s).1 ∧ (uniform_int_distribution a b s).1 ≤ b := by
  have hne : (b - a + 1 : Int) ≠ 0 := by omega
  have h1 : 0 ≤ ((engine_next s).1 : Int) % (b - a + 1) := Int.emod_nonneg _ hne
  have h2 : ((engine_next s).1 : Int) % (b - a + 1) < b - a + 1 :=
    Int.emod_lt_of_pos _ (by omega)
  dsimp only [uniform_int_distribution]
  omega

/-- `get_int` lands in the closed interval spanned by its two bounds,
in either order. -/
lemma get_int_in_range (f t : Int) (s : Nat) :
    min f t ≤ (get_int f t s).1 ∧ (get_int f t s).1 ≤ max f t := by
  unfold get_int
  rcases lt_trichotomy f t with h | h | h
  · rw [if_pos h, min_eq_left h.le, max_eq_right h.le]
    exact uniform_int_in_range f t s h.le
  · subst h
    rw [if_neg (lt_irrefl f), min_self, max_self]
    exact uniform_int_in_range f f s le_rfl
  · rw [if_neg (not_lt.2 h.le), min_eq_right h.le, max_eq_left h.le]
    exact uniform_int_in_range t f s h.le

/-- The uniform-real model honours its contract: for `a ≤ b` the value
lies in `[a, b]`. -/
lemma uniform_real_in_range (a b : ℚ) (s : Nat) (h : a ≤ b) :
    a ≤ (uniform_real_distribution a b s).1 ∧ (uniform_real_distribution a b s).1 ≤ b := by
  have hrn : (0 : ℚ) ≤ ((engine_next s).1 : ℚ) := Nat.cast_nonneg _
  have hrM : ((engine_next s).1 : ℚ) ≤ 2147483647 := by
    have : (engine_next s).1 < 2147483647 := Nat.mod_lt _ (by norm_num)
    exact_mod_cast this.le
  have hfrac0 : (0 : ℚ) ≤ ((engine_next s).1 : ℚ) / 2147483647 := by positivity
  have hfrac1 : ((engine_next s).1 : ℚ) / 2147483647 ≤ 1 := by
    rw [div_le_one (by norm_num)]; exact hrM
  have hd : (0 : ℚ) ≤ b - a := sub_nonneg.2 h
  dsimp only [uniform_real_distribution]
  constructor
  · nlinarith
  · nlinarith

/-- `get_real` lands in the closed interval spanned by its two bounds,
in either order. -/
lemma get_real_in_range (f t : ℚ) (s : Nat) :
    min f t ≤ (get_real f t s).1 ∧ (get_real f t s).1 ≤ max f t := by
  unfold get_real
  rcases lt_trichotomy f t with h | h | h
  · rw [if_pos h, min_eq_left h.le, max_eq_right h.le]
    exact uniform_real_in_range f t s h.le
  · subst h
    rw [if_neg (lt_irrefl f), min_self, max_self]
    exact uniform_real_in_range f f s le_rfl
  · rw [if_neg (not_lt.2 h.le), min_eq_right h.le, max_eq_left h.le]
    exact uniform_real_in_range t f s h.le

/-- Every type has positive width. -/
lemma width_pos (c : CType) : 1 ≤ width c := by
  cases c <;> decide

/-- `static_cast` into a type is the identity on values the type
represents. -/
lemma castInt_eq_self (c : CType) (x : Int)
    (h1 : tmin c ≤ x) (h2 : x ≤ tmax c) : castInt c x = x := by
  have hw : (2 : Int) ^ width c = 2 ^ (width c - 1) * 2 := by
    calc (2 : Int) ^ width c = 2 ^ (width c - 1 + 1) := by
          rw [Nat.sub_add_cancel (width_pos c)]
      _ = 2 ^ (width c - 1) * 2 := pow_succ 2 (width c - 1)
  cases hc : is_signed c with
  | true =>
    rw [tmin, if_pos hc] at h1
    rw [tmax, if_pos hc] at h2
    rw [castInt, if_pos hc]
    have hmod : (x + 2 ^ (width c - 1)) % 2 ^ width c = x + 2 ^ (width c - 1) :=
      Int.emod_eq_of_lt (by omega) (by omega)
    omega
  | false =>
    rw [tmin, if_neg (by simp [hc])] at h1
    rw [tmax, if_neg (by simp [hc])] at h2
    rw [castInt, if_neg (by simp [hc])]
    exact Int.emod_eq_of_lt h1 (by omega)

/-- `get_int` is unchanged by swapping its bounds (value and successor
engine state alike). -/
lemma get_int_swap (f t : Int) (s : Nat) : get_int f t s = get_int t f s := by
  unfold get_int
  rcases lt_trichotomy f t with h | h | h
  · rw [if_pos h, if_neg (lt_asymm h)]
  · subst h; rfl
  · rw [if_neg (lt_asymm h), if_pos h]

/-- `get_real` is unchanged by swapping its bounds. -/
lemma get_real_swap (f t : ℚ) (s : Nat) : get_real f t s = get_real t f s := by
  unfold get_real
  rcases lt_trichotomy f t with h | h | h
  · rw [if_pos h, if_neg (lt_asymm h)]
  · subst h; rfl
  · rw [if_neg (lt_asymm h), if_pos h]

/-- The byte type's range is contained in the matching 16-bit type's
range. -/
lemma byte_range_sub_short (sg : Bool) :
    tmin (short_type sg) ≤ tmin (byte_type sg) ∧
    tmax (byte_type sg) ≤ tmax (short_type sg) := by
  cases sg <;> decide

/-- The byte overload's result stays in the byte type's range and in
the interval spanned by in-range bounds. -/
lemma get_byte_in_range (sg : Bool) (f t : Int) (s : Nat)
    (hf1 : tmin (byte_type sg) ≤ f) (hf2 : f ≤ tmax (byte_type sg))
    (ht1 : tmin (byte_type sg) ≤ t) (ht2 : t ≤ tmax (byte_type sg)) :
    (min f t ≤ (get_byte sg f t s).1 ∧ (get_byte sg f t s).1 ≤ max f t) ∧
    (tmin (byte_type sg) ≤ (get_byte sg f t s).1 ∧
     (get_byte sg f t s).1 ≤ tmax (byte_type sg)) := by
  obtain ⟨hs1, hs2⟩ := byte_range_sub_short sg
  have hcf : castInt (short_type sg) f = f :=
    castInt_eq_self _ _ (le_trans hs1 hf1) (le_trans hf2 hs2)
  have hct : castInt (short_type sg) t = t :=
    castInt_eq_self _ _ (le_trans hs1 ht1) (le_trans ht2 hs2)
  have hr := get_int_in_range (castInt (short_type sg) f) (castInt (short_type sg) t) s
  rw [hcf, hct] at hr
  have hbl : tmin (byte_type sg) ≤ (get_int f t s).1 := le_trans (le_min hf1 ht1) hr.1
  have hbu : (get_int f t s).1 ≤ tmax (byte_type sg) := le_trans hr.2 (max_le hf2 ht2)
  have hcast : castInt (byte_type sg) (get_int f t s).1 = (get_int f t s).1 :=
    castInt_eq_self _ _ hbl hbu
  unfold get_byte
  rw [hcf, hct, hcast]
  exact ⟨hr, hbl, hbu⟩

/-! ### Claim theorems -/

/-- C2: for every supported integral type and every pair of bounds
`(from, to)`, the value returned by `get(from, to)` lies in
`[min(from, to), max(from, to)]`. -/
theorem c2_int_get_in_range (f t : Int) (s : Nat) :
    min f t ≤ (get_int f t s).1 ∧ (get_int f t s).1 ≤ max f t :=
  get_int_in_range f t s

/-- C3: `get` is swap-invariant as a function over the engine state:
for each overload, `get(a, b)` started from engine state `s` returns
the same value and the same successor state as `get(b, a)` started
from `s`, because unordered bounds are swapped internally before the
distribution is constructed. -/
theorem c3_get_swap_invariant :
    (∀ (f t : Int) (s : Nat), get_int f t s = get_int t f s) ∧
    (∀ (f t : ℚ) (s : Nat), get_real f t s = get_real t f s) ∧
    (∀ (sg : Bool) (f t : Int) (s : Nat), get_byte sg f t s = get_byte sg t f s) := by
  refine ⟨get_int_swap, get_real_swap, ?_⟩
  intro sg f t s
  unfold get_byte
  rw [get_int_swap]

/-- C4: for every supported category (integral, floating-point, byte)
and every bound value `x` (representable in the byte type for the byte
overload), `get(x, x)` returns exactly `x`. -/
theorem c4_degenerate_range (x : Int) (q : ℚ) (b : Int) (sg : Bool) (s : Nat)
    (hb1 : tmin (byte_type sg) ≤ b) (hb2 : b ≤ tmax (byte_type sg)) :
    (get_int x x s).1 = x ∧ (get_real q q s).1 = q ∧ (get_byte sg b b s).1 = b := by
  have hint : ∀ (y : Int) (s' : Nat), (get_int y y s').1 = y := by
    intro y s'
    unfold get_int
    rw [if_neg (lt_irrefl y)]
    dsimp only [uniform_int_distribution]
    have h1 : y - y + 1 = (1 : Int) := by ring
    rw [h1, Int.emod_one, add_zero]
  refine ⟨hint x s, ?_, ?_⟩
  · unfold get_real
    rw [if_neg (lt_irrefl q)]
    dsimp only [uniform_real_distribution]
    ring
  · obtain ⟨hs1, hs2⟩ := byte_range_sub_short sg
    have hcb : castInt (short_type sg) b = b :=
      castInt_eq_self _ _ (le_trans hs1 hb1) (le_trans hb2 hs2)
    unfold get_byte
    rw [hcb, hint b s]
    exact castInt_eq_self _ _ hb1 hb2

/-- C4 witness: the degenerate-range property at concrete inputs
`get_int 3 3`, `get_real 1 1`, `get_byte true 5 5`. -/
theorem c4_degenerate_range_witness :
    (tmin (byte_type true) ≤ 5 ∧ (5 : Int) ≤ tmax (byte_type true)) ∧
    ((get_int 3 3 0).1 = 3 ∧ (get_real 1 1 0).1 = 1 ∧ (get_byte true 5 5 0).1 = 5) :=
  ⟨⟨by decide, by decide⟩, c4_degenerate_range 3 1 5 true 0 (by decide) (by decide)⟩

/-- C6: for every supported floating-point type and every pair of
bounds `(from, to)`, the value returned by `get(from, to)` lies in
`[min(from, to), max(from, to)]` (the lower end closed; the upper end
inherited from the underlying uniform-real distribution). -/
theorem c6_real_get_in_range (f t : ℚ) (s : Nat) :
    min f t ≤ (get_real f t s).1 ∧ (get_real f t s).1 ≤ max f t :=
  get_real_in_range f t s

/-- C5: for byte types, `get(from, to)` widens both bounds to the
16-bit type of matching signedness, samples via the integral overload,
narrows back, and the result is representable in the byte type and
lies in `[min(from, to), max(from, to)]`. -/
theorem c5_byte_get_in_range (sg : Bool) (f t : Int) (s : Nat)
    (hf1 : tmin (byte_type sg) ≤ f) (hf2 : f ≤ tmax (byte_type sg))
    (ht1 : tmin (byte_type sg) ≤ t) (ht2 : t ≤ tmax (byte_type sg)) :
    (min f t ≤ (get_byte sg f t s).1 ∧ (get_byte sg f t s).1 ≤ max f t) ∧
    (tmin (byte_type sg) ≤ (get_byte sg f t s).1 ∧
     (get_byte sg f t s).1 ≤ tmax (byte_type sg)) :=
  get_byte_in_range sg f t s hf1 hf2 ht1 ht2

/-- C5 witness: the byte bounds `(-5, 5)` of signed-char type yield a
value in `[-5, 5]` and inside the signed-char range. -/
theorem c5_byte_get_in_range_witness :
    (tmin (byte_type true) ≤ -5 ∧ (-5 : Int) ≤ tmax (byte_type true) ∧
     tmin (byte_type true) ≤ 5 ∧ (5 : Int) ≤ tmax (byte_type true)) ∧
    ((min (-5 : Int) 5 ≤ (get_byte true (-5) 5 0).1 ∧
      (get_byte true (-5) 5 0).1 ≤ max (-5 : Int) 5) ∧
     (tmin (byte_type true) ≤ (get_byte true (-5) 5 0).1 ∧
      (get_byte true (-5) 5 0).1 ≤ tmax (byte_type true))) :=
  ⟨⟨by decide, by decide, by decide, by decide⟩,
   c5_byte_get_in_range true (-5) 5 0 (by decide) (by decide) (by decide) (by decide)⟩

/-- For every pair admitted by the common-type overload whose common
type is integral, each argument type's value range is contained in the
common type's value range. -/
lemma common_range_subset (a b : CType)
    (hen : commonGetEnabled a b = true)
    (hci : is_uniform_int (common_type a b) = true) :
    tmin (common_type a b) ≤ tmin a ∧ tmax a ≤ tmax (common_type a b) ∧
    tmin (common_type a b) ≤ tmin b ∧ tmax b ≤ tmax (common_type a b) := by
  revert hen hci
  revert a b
  decide

/-- C1 counterexample: the claim says the common-type overload is
enabled for `int`/`unsigned int` (one signed, one unsigned) and
statically rejected for same-signedness pairs such as `int`/`long`;
the code's condition `is_signed<A> != is_unsigned<B>` does the
opposite on both pairs. -/
theorem c1_counterexample_mixed_sign_rejected :
    commonGetEnabled CType.int CType.uint = false ∧
    commonGetEnabled CType.int CType.long = true := by decide

/-- For pairs admitted by the common-type overload, a non-floating
common type forces both argument types to be non-floating. -/
lemma common_enabled_real_args : ∀ a b : CType, commonGetEnabled a b = true →
    is_uniform_real (common_type a b) = false →
    is_uniform_real a = false ∧ is_uniform_real b = false := by decide

/-- For pairs admitted by the common-type overload, a byte common type
only arises from two equal byte argument types, and the byte overload
the recursion reaches is the one of that very type. -/
lemma common_enabled_byte : ∀ a b : CType, commonGetEnabled a b = true →
    is_byte (common_type a b) = true →
    b = a ∧ common_type a b = a ∧ byte_type (is_signed a) = a := by decide

/-- For pairs admitted by the common-type overload, a common type that
is neither floating nor byte is a uniform-int type. -/
lemma common_enabled_int : ∀ a b : CType, commonGetEnabled a b = true →
    is_uniform_real (common_type a b) = false →
    is_byte (common_type a b) = false →
    is_uniform_int (common_type a b) = true := by decide

/-- A well-typed value of a non-floating type is an integer within the
type's range. -/
lemma has_ctype_iv (t : CType) (v : Value) (hreal : is_uniform_real t = false)
    (h : has_ctype t v) : ∃ n, v = Value.iv n ∧ tmin t ≤ n ∧ n ≤ tmax t := by
  cases v with
  | iv n => exact ⟨n, rfl, h.2.1, h.2.2⟩
  | rv q => simp [has_ctype, hreal] at h

/-- An integer interval bound transfers along the cast into `ℚ`. -/
lemma int_interval_cast (x y v : Int) (h1 : min x y ≤ v) (h2 : v ≤ max x y) :
    min (x : ℚ) (y : ℚ) ≤ (v : ℚ) ∧ (v : ℚ) ≤ max (x : ℚ) (y : ℚ) := by
  constructor
  · rcases le_total x y with h | h
    · rw [min_eq_left h] at h1
      rw [min_eq_left (show (x : ℚ) ≤ (y : ℚ) by exact_mod_cast h)]
      exact_mod_cast h1
    · rw [min_eq_right h] at h1
      rw [min_eq_right (show (y : ℚ) ≤ (x : ℚ) by exact_mod_cast h)]
      exact_mod_cast h1
  · rcases le_total x y with h | h
    · rw [max_eq_right h] at h2
      rw [max_eq_right (show (x : ℚ) ≤ (y : ℚ) by exact_mod_cast h)]
      exact_mod_cast h2
    · rw [max_eq_left h] at h2
      rw [max_eq_left (show (y : ℚ) ≤ (x : ℚ) by exact_mod_cast h)]
      exact_mod_cast h2

/-- C1 (amended): the common-type overload is enabled exactly when
both argument types are supported numbers of the same signedness
(`std::is_signed` agreeing, floating-point types counting as signed) —
mixed signed/unsigned pairs are statically rejected; when enabled, it
casts both bounds into `std::common_type<A, B>` and recurses into the
single-type category matching the common type (real, byte, or
integral), and the sampled value lies in
`[min(from, to), max(from, to)]` for well-typed bounds. -/
theorem c1_common_overload (a b : CType) (fv tv : Value) (s : Nat)
    (hen : commonGetEnabled a b = true)
    (hf : has_ctype a fv) (ht : has_ctype b tv) :
    (∀ a' b' : CType, commonGetEnabled a' b' =
      (is_supported_number a' && is_supported_number b' &&
       (is_signed a' == is_signed b'))) ∧
    (min (toRat fv) (toRat tv) ≤ toRat (get_common_val a b fv tv s).1 ∧
     toRat (get_common_val a b fv tv s).1 ≤ max (toRat fv) (toRat tv)) := by
  refine ⟨by decide, ?_⟩
  by_cases hr : is_uniform_real (common_type a b) = true
  · unfold get_common_val
    rw [if_pos hr]
    exact get_real_in_range (toRat fv) (toRat tv) s
  · have hr' : is_uniform_real (common_type a b) = false := by
      revert hr; cases is_uniform_real (common_type a b) <;> simp
    obtain ⟨hra, hrb⟩ := common_enabled_real_args a b hen hr'
    obtain ⟨nf, rfl, hnf1, hnf2⟩ := has_ctype_iv a fv hra hf
    obtain ⟨nt, rfl, hnt1, hnt2⟩ := has_ctype_iv b tv hrb ht
    by_cases hb : is_byte (common_type a b) = true
    · obtain ⟨hba, hca, hbt⟩ := common_enabled_byte a b hen hb
      subst hba
      unfold get_common_val
      rw [if_neg (by simp [hr']), if_pos hb]
      dsimp only [toValInt, toRat]
      rw [hca, castInt_eq_self b nf hnf1 hnf2, castInt_eq_self b nt hnt1 hnt2]
      have h := get_byte_in_range (is_signed b) nf nt s
        (by rw [hbt]; exact hnf1) (by rw [hbt]; exact hnf2)
        (by rw [hbt]; exact hnt1) (by rw [hbt]; exact hnt2)
      exact int_interval_cast nf nt _ h.1.1 h.1.2
    · have hb' : is_byte (common_type a b) = false := by
        revert hb; cases is_byte (common_type a b) <;> simp
      have hci := common_enabled_int a b hen hr' hb'
      obtain ⟨h1, h2, h3, h4⟩ := common_range_subset a b hen hci
      unfold get_common_val
      rw [if_neg (by simp [hr']), if_neg (by simp [hb'])]
      dsimp only [toValInt, toRat]
      rw [castInt_eq_self _ _ (le_trans h1 hnf1) (le_trans hnf2 h2),
          castInt_eq_self _ _ (le_trans h3 hnt1) (le_trans hnt2 h4)]
      have h := get_int_in_range nf nt s
      exact int_interval_cast nf nt _ h.1 h.2

/-- C1 witness: `get<common>` on the same-signedness pair
`(int) -10`, `(double) 10` is enabled, promotes to `double` (the real
category), and samples in `[-10, 10]`. -/
theorem c1_common_overload_witness :
    (commonGetEnabled CType.int CType.double = true ∧
     has_ctype CType.int (Value.iv (-10)) ∧
     has_ctype CType.double (Value.rv 10)) ∧
    ((∀ a' b' : CType, commonGetEnabled a' b' =
       (is_supported_number a' && is_supported_number b' &&
        (is_signed a' == is_signed b'))) ∧
     (min (toRat (Value.iv (-10))) (toRat (Value.rv 10)) ≤
        toRat (get_common_val CType.int CType.double (Value.iv (-10)) (Value.rv 10) 1).1 ∧
      toRat (get_common_val CType.int CType.double (Value.iv (-10)) (Value.rv 10) 1).1 ≤
        max (toRat (Value.iv (-10))) (toRat (Value.rv 10)))) :=
  ⟨⟨by decide, by decide, by decide⟩,
   c1_common_overload CType.int CType.double (Value.iv (-10)) (Value.rv 10) 1
     (by decide) (by decide) (by decide)⟩

/-- C7: the static return type of a resolved `get` call is the common
type of the two argument types, and equals the argument type whenever
both arguments already share one type. -/
theorem c7_return_type_is_common_type :
    (∀ (k : Bool) (a b r : CType), get_return_type k a b = some r → r = common_type a b) ∧
    (∀ a : CType, is_supported_number a = true → get_return_type false a a = some a) := by
  constructor
  · decide
  · decide

/-- C7 witness: `get<common>(int, long)` returns `long`, the common
type of `int` and `long`; a same-type `int` call returns `int`. -/
theorem c7_return_type_is_common_type_witness :
    (get_return_type true CType.int CType.long = some CType.long ∧
     CType.long = common_type CType.int CType.long) ∧
    (is_supported_number CType.int = true ∧
     get_return_type false CType.int CType.int = some CType.int) :=
  ⟨⟨by decide, c7_return_type_is_common_type.1 true CType.int CType.long CType.long (by decide)⟩,
   ⟨by decide, c7_return_type_is_common_type.2 CType.int (by decide)⟩⟩

/-- C8: `get` has no runtime error path: the same-type dispatch
produces a value precisely for the supported types (all overloads are
total functions of the engine state), and a keyed call resolves
precisely when its static `enable_if` condition holds — unsupported
combinations are rejected statically (`none`), never at runtime. -/
theorem c8_total_no_runtime_error :
    (∀ (t : CType) (fi ti : Int) (fr tr : ℚ) (s : Nat),
      (get_same t fi ti fr tr s).isSome = is_supported_number t) ∧
    (∀ a b : CType, (resolve_get true a b).isSome = commonGetEnabled a b) := by
  constructor
  · intro t fi ti fr tr s
    cases t <;> simp [get_same, is_supported_number, is_uniform_int, is_uniform_real, is_byte]
  · decide

/-- The integral `get` consumes exactly one engine draw. -/
lemma get_int_snd (f t : Int) (s : Nat) : (get_int f t s).2 = (engine_next s).2 := by
  unfold get_int
  split <;> rfl

/-- The real `get` consumes exactly one engine draw. -/
lemma get_real_snd (f t : ℚ) (s : Nat) : (get_real f t s).2 = (engine_next s).2 := by
  unfold get_real
  split <;> rfl

/-- The byte `get` consumes exactly one engine draw. -/
lemma get_byte_snd (sg : Bool) (f t : Int) (s : Nat) :
    (get_byte sg f t s).2 = (engine_next s).2 := by
  unfold get_byte
  exact get_int_snd _ _ s

/-- The common-type `get` consumes exactly one engine draw in each of
its three recursion branches. -/
lemma get_common_val_snd (a b : CType) (fv tv : Value) (s : Nat) :
    (get_common_val a b fv tv s).2 = (engine_next s).2 := by
  unfold get_common_val
  split
  · exact get_real_snd _ _ s
  · split
    · exact get_byte_snd _ _ _ s
    · exact get_int_snd _ _ s

/-- C9: a single shared engine backs all overloads of `get`: every
call advances exactly that engine (its new state is the engine-step of
the old one, the same step for every overload) and leaves every other
observable part of the program state unchanged. -/
theorem c9_single_engine_frame :
    (∀ (f t : Int) (g : ProgState),
      (get_int_st f t g).2.world = g.world ∧
      (get_int_st f t g).2.engine = (engine_next g.engine).2) ∧
    (∀ (f t : ℚ) (g : ProgState),
      (get_real_st f t g).2.world = g.world ∧
      (get_real_st f t g).2.engine = (engine_next g.engine).2) ∧
    (∀ (sg : Bool) (f t : Int) (g : ProgState),
      (get_byte_st sg f t g).2.world = g.world ∧
      (get_byte_st sg f t g).2.engine = (engine_next g.engine).2) ∧
    (∀ (a b : CType) (fv tv : Value) (g : ProgState),
      (get_common_st a b fv tv g).2.world = g.world ∧
      (get_common_st a b fv tv g).2.engine = (engine_next g.engine).2) := by
  refine ⟨?_, ?_, ?_, ?_⟩
  · intro f t g
    exact ⟨rfl, get_int_snd f t g.engine⟩
  · intro f t g
    exact ⟨rfl, get_real_snd f t g.engine⟩
  · intro sg f t g
    exact ⟨rfl, get_byte_snd sg f t g.engine⟩
  · intro a b fv tv g
    exact ⟨rfl, get_common_val_snd a b fv tv g.engine⟩

/-- C10: without the explicit `common` key, a two-argument call
`get(from, to)` never resolves to the common-type overload: with two
different argument types it fails to compile (even for pairs the
overload's enable-condition accepts), and it never selects the
common-type overload at all. -/
theorem c10_common_needs_explicit_key :
    (∀ a b : CType, a ≠ b → resolve_get false a b = none) ∧
    (∀ a b : CType, resolve_get false a b ≠ some Overload.commonKey) := by
  constructor
  · decide
  · decide

/-- C10 witness: the unkeyed call on the distinct pair `int`/`long`
fails to resolve even though the common-type overload's
enable-condition accepts that pair. -/
theorem c10_common_needs_explicit_key_witness :
    (CType.int ≠ CType.long ∧ commonGetEnabled CType.int CType.long = true ∧
     resolve_get false CType.int CType.long = none) ∧
    resolve_get false CType.int CType.int ≠ some Overload.commonKey :=
  ⟨⟨by decide, by decide,
    c10_common_needs_explicit_key.1 CType.int CType.long (by decide)⟩,
   c10_common_needs_explicit_key.2 CType.int CType.int⟩

end effolkronium
